import Mathlib

/-!
Shallow embedding of the `Rezaii13/Python-password-` repository
(`src/models.py`, `src/database.py`, `src/config.py`) together with the
session-lifecycle operations that the specification describes.

Python strings are modelled as `List Char`; `datetime` values as `Nat`
(seconds since the epoch); nullable columns as `Option`; raised exceptions
as `Except` / an explicit exceptional outcome.

`models.py` delegates password hashing to the external werkzeug utility
(`generate_password_hash` / `check_password_hash`); those two functions are
embedded following werkzeug's behaviour: a stored hash has the shape
`method$salt$digest`, verification splits the stored string on the first two
`$` characters, returns `False` when the split fails, raises for an unknown
method, and otherwise compares the recomputed digest.  The cryptographic
digest itself is modelled as an ideal (collision-free, hence injective)
function of method, salt and password, realised by a hex encoding;
one-wayness is a computational property outside the scope of this embedding.
-/

namespace PasswordRepo

/-- Python strings are modelled as lists of characters. -/
abbrev Str := List Char

/-- True when the string contains no `$` separator character. -/
def dollarFree : Str → Bool
  | [] => true
  | c :: cs => if c = '$' then false else dollarFree cs

/-- Lower-case hex digit for a value below 16. -/
def hexDigit (n : Nat) : Char :=
  if n < 10 then Char.ofNat (48 + n) else Char.ofNat (87 + n)

/-- Big-endian fixed-width hex rendering of a natural number. -/
def hexOfNat : Nat → Nat → Str
  | 0, _ => []
  | w + 1, n => hexOfNat w (n / 16) ++ [hexDigit (n % 16)]

/-- Numeric value of a lower-case hex digit. -/
def hexVal (c : Char) : Nat :=
  if c.toNat ≥ 97 then c.toNat - 87 else c.toNat - 48

/-- Big-endian interpretation of a hex string. -/
def natOfHex (s : Str) : Nat :=
  s.foldl (fun a c => 16 * a + hexVal c) 0

/-- Hex encoding of a string, six hex digits per character (every Unicode
scalar value is below `16 ^ 6`).  Used as the ideal digest primitive. -/
def hexEncode : Str → Str
  | [] => []
  | c :: cs => hexOfNat 6 c.toNat ++ hexEncode cs

/-- Method string werkzeug uses by default for `generate_password_hash`
(scrypt with its default cost parameters). -/
def DEFAULT_METHOD : Str := "scrypt:32768:8:1".data

/-- Werkzeug accepts exactly the hash methods whose name (the part of the
method string before the first `:`) is `scrypt` or `pbkdf2`; any other
method makes `_hash_internal` raise `ValueError`. -/
def knownMethod (method : Str) : Bool :=
  method.takeWhile (fun c => c ≠ ':') == "scrypt".data ||
    method.takeWhile (fun c => c ≠ ':') == "pbkdf2".data

/-- Ideal model of werkzeug's `_hash_internal` digest: an injective
(collision-free) function of method, salt and password. -/
def hashInternal (method salt password : Str) : Str :=
  hexEncode (method ++ '$' :: (salt ++ '$' :: password))

/-- Werkzeug's `generate_password_hash`: the stored credential is
`method$salt$digest`.  The randomly generated salt is made an explicit
argument. -/
def generate_password_hash (password salt : Str) : Str :=
  DEFAULT_METHOD ++ '$' :: (salt ++ '$' :: hashInternal DEFAULT_METHOD salt password)

/-- Errors a credential check can raise: a missing stored hash
(`None.split` raises `AttributeError`) or an unknown hash method
(`_hash_internal` raises `ValueError`). -/
inductive CredError where
  | corruptCredential
  | invalidMethod
deriving DecidableEq

/-- Split a string at the first occurrence of `sep`:
`some (before, after)`, or `none` when `sep` does not occur. -/
def splitFirst (sep : Char) : Str → Option (Str × Str)
  | [] => none
  | c :: cs =>
    if c = sep then some ([], cs)
    else
      match splitFirst sep cs with
      | none => none
      | some (a, b) => some (c :: a, b)

/-- Werkzeug's `check_password_hash`: split the stored hash on the first two
`$` (returning `False` when the split fails, exactly like the
`pwhash.split("$", 2)` unpacking), raise for an unknown method, and otherwise
compare the recomputed digest against the stored one. -/
def check_password_hash (pwhash password : Str) : Except CredError Bool :=
  match splitFirst '$' pwhash with
  | none => .ok false
  | some (method, rest) =>
    match splitFirst '$' rest with
    | none => .ok false
    | some (salt, hashval) =>
      if knownMethod method then
        .ok (hashInternal method salt password == hashval)
      else
        .error .invalidMethod

/-- The `users` table row of `src/models.py`.  Nullable columns and columns
that are unset before the ORM applies defaults are `Option`s. -/
structure User where
  id : Option Nat
  username : Str
  email : Str
  password_hash : Option Str
  first_name : Option Str
  last_name : Option Str
  is_active : Bool
  created_at : Option Nat
  updated_at : Option Nat
deriving DecidableEq

/-- `User.set_password`: `self.password_hash = generate_password_hash(password)`,
with the hashing salt made explicit. -/
def set_password (u : User) (password salt : Str) : User :=
  { u with password_hash := some (generate_password_hash password salt) }

/-- `User.check_password`: `check_password_hash(self.password_hash, password)`.
A missing stored hash makes Python's `None.split` raise (`AttributeError`),
modelled as the corrupt-credential error. -/
def check_password (u : User) (password : Str) : Except CredError Bool :=
  match u.password_hash with
  | none => .error .corruptCredential
  | some h => check_password_hash h password

/-- Python truthiness of an optional string: `None` and the empty string
are falsy, any other string is truthy. -/
def truthy : Option Str → Bool
  | none => false
  | some s => !s.isEmpty

/-- `User.get_full_name`: first and last name joined when both are truthy,
one of them when only it is truthy, the username otherwise. -/
def get_full_name (u : User) : Str :=
  if truthy u.first_name && truthy u.last_name then
    u.first_name.getD [] ++ ' ' :: u.last_name.getD []
  else if truthy u.first_name then u.first_name.getD []
  else if truthy u.last_name then u.last_name.getD []
  else u.username

/-- Values appearing in the dictionary returned by `User.to_dict`. -/
inductive Value where
  | vNull
  | vNat (n : Nat)
  | vStr (s : Str)
  | vBool (b : Bool)
deriving DecidableEq

/-- Stand-in for `datetime.isoformat`: a rendering of the timestamp.
Only its application, never its shape, matters to the claims. -/
def isoformat (t : Nat) : Str :=
  Nat.toDigits 10 t

/-- `User.to_dict`: the API-facing dictionary, as an association list in the
order the Python dict literal lists its keys. -/
def to_dict (u : User) : List (Str × Value) :=
  [ ("id".data, match u.id with | none => .vNull | some n => .vNat n),
    ("username".data, .vStr u.username),
    ("email".data, .vStr u.email),
    ("first_name".data, match u.first_name with | none => .vNull | some s => .vStr s),
    ("last_name".data, match u.last_name with | none => .vNull | some s => .vStr s),
    ("full_name".data, .vStr (get_full_name u)),
    ("is_active".data, .vBool u.is_active),
    ("created_at".data, match u.created_at with | none => .vNull | some t => .vStr (isoformat t)),
    ("updated_at".data, match u.updated_at with | none => .vNull | some t => .vStr (isoformat t)) ]

/-- Direct attribute assignment of the profile-name columns on the ORM
object (a profile change, the mutation the spec names besides a password
change). -/
def update_profile (u : User) (f l : Option Str) : User :=
  { u with first_name := f, last_name := l }

/-- ORM flush of a `User` row: the `updated_at` column is declared with
`onupdate=datetime.utcnow`, so whenever the flushed object is dirty (an
UPDATE statement is emitted because the row changed) the ORM refreshes
`updated_at` to the current time; a clean object emits no UPDATE. -/
def flush_user (old new : User) (now : Nat) : User :=
  if new = old then new else { new with updated_at := some now }

/-! ### Session lifecycle (modelled from the spec)

The repository's `src/` contains no Session implementation — the spec's
§3/§4.2 describe the session entity and its operations (`create_session`,
`validate_session`, `invalidate_session`).  They are modelled here from the
spec's words. -/

/-- Modelled from the spec: the `sessions` row — owning user id, unique
token, active flag, created / expiry / last-activity timestamps. -/
structure Session where
  user_id : Nat
  token : Str
  is_active : Bool
  created_at : Nat
  expires_at : Nat
  last_activity : Nat
deriving DecidableEq

/-- The session store: the rows of the sessions table. -/
abbrev Store := List Session

/-- Lookup of a session row by its token. -/
def findSession (st : Store) (token : Str) : Option Session :=
  st.find? (fun s => s.token == token)

/-- Modelled from the spec: `create_session(user_id, ip, user_agent, ttl)`
persists a new row with `expires_at = now + ttl` and `is_active = true`;
the generated token is an explicit argument (token uniqueness is the
spec's retry-on-collision guarantee). -/
def create_session (st : Store) (uid : Nat) (token : Str) (now ttl : Nat) : Store :=
  { user_id := uid, token := token, is_active := true,
    created_at := now, expires_at := now + ttl, last_activity := now } :: st

/-- Outcome of `validate_session`: the owning user, or the single folded
`Invalid` outcome. -/
inductive ValidateResult where
  | valid (user_id : Nat)
  | Invalid
deriving DecidableEq

/-- Modelled from the spec: `validate_session(token)` returns `Invalid` when
the token is not found, the session is inactive, or the current time is not
before `expires_at`; otherwise it refreshes `last_activity` and returns the
associated user. -/
def validate_session (st : Store) (token : Str) (now : Nat) : ValidateResult × Store :=
  match findSession st token with
  | none => (.Invalid, st)
  | some s =>
    if s.is_active && decide (now < s.expires_at) then
      (.valid s.user_id,
        st.map (fun r => if r.token == token then { r with last_activity := now } else r))
    else (.Invalid, st)

/-- Modelled from the spec: `invalidate_session(token)` sets
`is_active = false`; idempotent. -/
def invalidate_session (st : Store) (token : Str) : Store :=
  st.map (fun r => if r.token == token then { r with is_active := false } else r)

/-- The operations a caller can run against the session store. -/
inductive Op where
  | create (uid : Nat) (token : Str) (now ttl : Nat)
  | validate (token : Str) (now : Nat)
  | invalidate (token : Str)

/-- One store transition. -/
def step (st : Store) : Op → Store
  | .create uid tk now ttl => create_session st uid tk now ttl
  | .validate tk now => (validate_session st tk now).2
  | .invalidate tk => invalidate_session st tk

/-- Run a sequence of operations against the store. -/
def run (st : Store) (ops : List Op) : Store :=
  ops.foldl step st

/-- An operation avoids token `t` when it is not a `create` bearing `t`
(fresh tokens are guaranteed unique by the spec, so no later `create` can
reuse an existing session's token). -/
def avoidsToken (t : Str) : Op → Bool
  | .create _ tk _ _ => !(tk == t)
  | _ => true

/-! ### Database session management (`src/database.py`) -/

/-- Result of running a consumer body: a normal return or a raised
exception. -/
inductive Outcome (A : Type) where
  | ok (a : A)
  | exn (msg : Str)
deriving DecidableEq

/-- Bookkeeping of SQLAlchemy sessions handed out by `SessionLocal`:
a fresh-id counter and the ids of the currently open sessions. -/
structure DBState where
  nextId : Nat
  openIds : List Nat
deriving DecidableEq

/-- `SessionLocal()`: opens a fresh database session. -/
def SessionLocal (st : DBState) : Nat × DBState :=
  (st.nextId, { nextId := st.nextId + 1, openIds := st.nextId :: st.openIds })

/-- `db.close()`: the session is no longer open. -/
def closeSession (sid : Nat) (st : DBState) : DBState :=
  { st with openIds := st.openIds.erase sid }

/-- Semantics of `try: ... finally: ...`: the finaliser runs on the state
left by the body whether the body returned normally or raised, and the
body's outcome (value or exception) is then propagated. -/
def tryFinally {A : Type} (body : DBState → Outcome A × DBState)
    (finaliser : DBState → DBState) (st : DBState) : Outcome A × DBState :=
  let r := body st
  (r.1, finaliser r.2)

/-- `get_db`: opens a session with `SessionLocal()`, yields it to the
consumer inside `try: yield db finally: db.close()`.  The consumer sees the
session id and may return normally or raise. -/
def get_db {A : Type} (consumer : Nat → Outcome A) (st : DBState) :
    Outcome A × DBState :=
  let (db, st1) := SessionLocal st
  tryFinally (fun s => (consumer db, s)) (closeSession db) st1

/-! ### Helper lemmas about the hashing model -/

theorem hexOfNat_length (w n : Nat) : (hexOfNat w n).length = w := by
  induction w generalizing n with
  | zero => rfl
  | succ w ih => simp [hexOfNat, ih]

theorem hexRoundFin :
    ∀ d : Fin 16, hexVal (hexDigit d.val) = d.val ∧ hexDigit d.val ≠ '$' := by
  decide

theorem natOfHex_append_single (xs : Str) (c : Char) :
    natOfHex (xs ++ [c]) = 16 * natOfHex xs + hexVal c := by
  simp [natOfHex, List.foldl_append]

theorem natOfHex_hexOfNat (w n : Nat) (h : n < 16 ^ w) :
    natOfHex (hexOfNat w n) = n := by
  induction w generalizing n with
  | zero =>
    simp [hexOfNat, natOfHex]
    omega
  | succ w ih =>
    have hdiv : n / 16 < 16 ^ w := by
      rw [Nat.div_lt_iff_lt_mul (by norm_num)]
      calc n < 16 ^ (w + 1) := h
        _ = 16 ^ w * 16 := by ring
    have hmod : n % 16 < 16 := Nat.mod_lt _ (by norm_num)
    rw [hexOfNat, natOfHex_append_single, ih _ hdiv,
      (hexRoundFin ⟨n % 16, hmod⟩).1]
    show 16 * (n / 16) + n % 16 = n
    omega

theorem hexOfNat_inj {w n n' : Nat} (h : n < 16 ^ w) (h' : n' < 16 ^ w)
    (he : hexOfNat w n = hexOfNat w n') : n = n' := by
  rw [← natOfHex_hexOfNat w n h, ← natOfHex_hexOfNat w n' h', he]

theorem char_toNat_lt (c : Char) : c.toNat < 16 ^ 6 := by
  have h : c.toNat < 1114112 := by
    have h := c.valid
    rcases h with h | ⟨_, h⟩ <;> simp [Char.toNat, UInt32.toNat] at h ⊢ <;> omega
  omega

theorem char_toNat_inj {c c' : Char} (h : c.toNat = c'.toNat) : c = c' :=
  Char.eq_of_val_eq (UInt32.ext h)

theorem hexEncode_length (l : Str) : (hexEncode l).length = 6 * l.length := by
  induction l with
  | nil => rfl
  | cons c cs ih => simp [hexEncode, hexOfNat_length, ih]; ring

theorem hexEncode_inj : ∀ {l l' : Str}, hexEncode l = hexEncode l' → l = l' := by
  intro l
  induction l with
  | nil =>
    intro l' h
    cases l' with
    | nil => rfl
    | cons c cs =>
      have := congrArg List.length h
      simp [hexEncode, hexOfNat_length] at this
      omega
  | cons c cs ih =>
    intro l' h
    cases l' with
    | nil =>
      have := congrArg List.length h
      simp [hexEncode, hexOfNat_length] at this
    | cons c' cs' =>
      have hlen : (hexOfNat 6 c.toNat).length = (hexOfNat 6 c'.toNat).length := by
        simp [hexOfNat_length]
      obtain ⟨h1, h2⟩ := List.append_inj h hlen
      have hc : c = c' :=
        char_toNat_inj (hexOfNat_inj (char_toNat_lt c) (char_toNat_lt c') h1)
      rw [hc, ih h2]

theorem dollarFree_append (a b : Str) :
    dollarFree (a ++ b) = (dollarFree a && dollarFree b) := by
  induction a with
  | nil => simp [dollarFree]
  | cons c cs ih =>
    by_cases hc : c = '$' <;> simp [dollarFree, hc, ih]

theorem dollarFree_hexOfNat (w n : Nat) : dollarFree (hexOfNat w n) = true := by
  induction w generalizing n with
  | zero => rfl
  | succ w ih =>
    have hmod : n % 16 < 16 := Nat.mod_lt _ (by norm_num)
    have hd := (hexRoundFin ⟨n % 16, hmod⟩).2
    rw [hexOfNat, dollarFree_append, ih]
    simpa [dollarFree] using hd

theorem dollarFree_hexEncode (l : Str) : dollarFree (hexEncode l) = true := by
  induction l with
  | nil => rfl
  | cons c cs ih =>
    rw [hexEncode, dollarFree_append, dollarFree_hexOfNat, ih]
    rfl

theorem splitFirst_dollar_append (a b : Str) (h : dollarFree a = true) :
    splitFirst '$' (a ++ '$' :: b) = some (a, b) := by
  induction a with
  | nil => simp [splitFirst]
  | cons c cs ih =>
    by_cases hc : c = '$'
    · rw [dollarFree, if_pos hc] at h
      exact absurd h (by simp)
    · rw [dollarFree, if_neg hc] at h
      simp [splitFirst, hc, ih h]

theorem hashInternal_inj_password {m s p p' : Str}
    (h : hashInternal m s p' = hashInternal m s p) : p' = p := by
  unfold hashInternal at h
  have h1 := hexEncode_inj h
  have h2 := List.append_cancel_left h1
  injection h2 with _ h3
  have h4 := List.append_cancel_left h3
  injection h4 with _ h5

theorem hashInternal_beq (m s p p' : Str) :
    (hashInternal m s p' == hashInternal m s p) = (p' == p) := by
  by_cases h : p' = p
  · subst h; simp
  · have hne : hashInternal m s p' ≠ hashInternal m s p :=
      fun he => h (hashInternal_inj_password he)
    rw [beq_eq_false_iff_ne.mpr hne, beq_eq_false_iff_ne.mpr h]

theorem check_generate (p p' salt : Str) (hs : dollarFree salt = true) :
    check_password_hash (generate_password_hash p salt) p' = .ok (p' == p) := by
  have h1 : splitFirst '$' (generate_password_hash p salt) =
      some (DEFAULT_METHOD, salt ++ '$' :: hashInternal DEFAULT_METHOD salt p) := by
    unfold generate_password_hash
    exact splitFirst_dollar_append DEFAULT_METHOD _ (by decide)
  have h2 : splitFirst '$' (salt ++ '$' :: hashInternal DEFAULT_METHOD salt p) =
      some (salt, hashInternal DEFAULT_METHOD salt p) :=
    splitFirst_dollar_append _ _ hs
  have hk : knownMethod DEFAULT_METHOD = true := by decide
  simp only [check_password_hash, h1, h2, hk, if_true]
  rw [hashInternal_beq]

theorem splitFirst_dollar_none (a : Str) (h : dollarFree a = true) :
    splitFirst '$' a = none := by
  induction a with
  | nil => rfl
  | cons c cs ih =>
    by_cases hc : c = '$'
    · rw [dollarFree, if_pos hc] at h
      exact absurd h (by simp)
    · rw [dollarFree, if_neg hc] at h
      simp [splitFirst, hc, ih h]

theorem DEFAULT_METHOD_length : DEFAULT_METHOD.length = 16 := rfl

theorem gph_ne_password (p salt : Str) : generate_password_hash p salt ≠ p := by
  intro h
  have hl := congrArg List.length h
  simp [generate_password_hash, hashInternal, hexEncode_length,
    DEFAULT_METHOD_length] at hl
  omega

theorem gph_inj_salt {p salt salt' : Str} (hs : dollarFree salt = true)
    (hs' : dollarFree salt' = true)
    (h : generate_password_hash p salt = generate_password_hash p salt') :
    salt = salt' := by
  unfold generate_password_hash at h
  have h2 := List.append_cancel_left h
  injection h2 with _ h3
  have e1 := splitFirst_dollar_append salt (hashInternal DEFAULT_METHOD salt p) hs
  have e2 := splitFirst_dollar_append salt' (hashInternal DEFAULT_METHOD salt' p) hs'
  rw [h3] at e1
  have h5 := e2.symm.trans e1
  simp only [Option.some.injEq, Prod.mk.injEq] at h5
  exact h5.1.symm

/-! ### Helper lemmas about the session lifecycle -/

/-- Every session row carrying token `t` is inactive. -/
def tokenInactive (t : Str) (st : Store) : Prop :=
  ∀ s ∈ st, s.token = t → s.is_active = false

theorem tokenInactive_invalidate (st : Store) (t : Str) :
    tokenInactive t (invalidate_session st t) := by
  intro s hs hst
  rcases List.mem_map.mp hs with ⟨r, _, hr⟩
  by_cases hrt : (r.token == t) = true
  · rw [← hr, if_pos hrt]
  · rw [← hr, if_neg hrt] at hst ⊢
    exact absurd (by simpa using hst) (by simpa using hrt)

theorem tokenInactive_validate (st : Store) (t tk : Str) (now : Nat)
    (h : tokenInactive t st) : tokenInactive t (validate_session st tk now).2 := by
  unfold validate_session
  cases hf : findSession st tk with
  | none => exact h
  | some s =>
    dsimp only
    by_cases hact : (s.is_active && decide (now < s.expires_at)) = true
    · rw [if_pos hact]
      intro r hr hrt
      rcases List.mem_map.mp hr with ⟨q, hq, hqr⟩
      by_cases hqt : (q.token == tk) = true
      · rw [← hqr, if_pos hqt] at hrt ⊢
        exact h q hq hrt
      · rw [← hqr, if_neg hqt] at hrt ⊢
        exact h q hq hrt
    · rw [if_neg hact]
      exact h

theorem tokenInactive_invalidate_other (st : Store) (t tk : Str)
    (h : tokenInactive t st) : tokenInactive t (invalidate_session st tk) := by
  intro r hr hrt
  rcases List.mem_map.mp hr with ⟨q, hq, hqr⟩
  by_cases hqt : (q.token == tk) = true
  · rw [← hqr, if_pos hqt]
  · rw [← hqr, if_neg hqt] at hrt ⊢
    exact h q hq hrt

theorem tokenInactive_step (st : Store) (t : Str) (op : Op)
    (hop : avoidsToken t op = true) (h : tokenInactive t st) :
    tokenInactive t (step st op) := by
  cases op with
  | create uid tk now ttl =>
    intro s hs hst
    cases hs with
    | head =>
      have : ¬(tk == t) = true := by simpa [avoidsToken] using hop
      exact absurd (by simpa using hst) (by simpa using this)
    | tail _ hmem => exact h s hmem hst
  | validate tk now => exact tokenInactive_validate st t tk now h
  | invalidate tk => exact tokenInactive_invalidate_other st t tk h

theorem tokenInactive_run (st : Store) (t : Str) (ops : List Op)
    (hops : ∀ op ∈ ops, avoidsToken t op = true) (h : tokenInactive t st) :
    tokenInactive t (run st ops) := by
  induction ops generalizing st with
  | nil => exact h
  | cons op ops ih =>
    exact ih (step st op)
      (fun o ho => hops o (List.mem_cons_of_mem op ho))
      (tokenInactive_step st t op (hops op (List.mem_cons_self op ops)) h)

theorem validate_Invalid_of_tokenInactive (st : Store) (t : Str) (now : Nat)
    (h : tokenInactive t st) : (validate_session st t now).1 = .Invalid := by
  unfold validate_session
  cases hf : findSession st t with
  | none => rfl
  | some s =>
    have hmem : s ∈ st := List.mem_of_find?_eq_some hf
    have hst : s.token = t := by
      have := List.find?_some hf
      simpa using this
    dsimp only
    rw [h s hmem hst]
    simp

/-! ### Sample rows used by the witnesses -/

/-- A concrete users-table row. -/
def u0 : User :=
  { id := some 1, username := "alice".data, email := "alice@example.com".data,
    password_hash := none, first_name := none, last_name := none,
    is_active := true, created_at := some 1700000000, updated_at := some 1700000000 }

/-- A concrete active, unexpired session row. -/
def sess0 : Session :=
  { user_id := 7, token := "tok".data, is_active := true,
    created_at := 0, expires_at := 1000, last_activity := 0 }

/-- A concrete session store. -/
def st0 : Store := [sess0]

/-- A concrete operation sequence run after an invalidation: a creation with
a different (unique) token, a validation attempt, a repeated invalidation. -/
def ops0 : List Op :=
  [.create 2 "other".data 10 100, .validate "tok".data 5, .invalidate "tok".data]

/-! ### Claims -/

/-- C1: immediately after `set_password(p)`, `check_password(p)` returns
true, and `check_password(p')` returns false for every p' ≠ p — including
case-only differences. -/
theorem C1_set_then_check (u : User) (p p' salt : Str)
    (hs : dollarFree salt = true) (hne : p' ≠ p) :
    check_password (set_password u p salt) p = .ok true ∧
    check_password (set_password u p salt) p' = .ok false := by
  unfold check_password set_password
  dsimp only
  rw [check_generate p p salt hs, check_generate p p' salt hs,
    beq_self_eq_true, beq_eq_false_iff_ne.mpr hne]
  exact ⟨rfl, rfl⟩

/-- C1 witness: the spec's scenario — after `set_password("Secr3t!")`,
checking `"Secr3t!"` succeeds and the case-mismatched `"secr3t!"` fails. -/
theorem C1_witness :
    check_password (set_password u0 "Secr3t!".data "QYxRfvPo".data) "Secr3t!".data
      = .ok true ∧
    check_password (set_password u0 "Secr3t!".data "QYxRfvPo".data) "secr3t!".data
      = .ok false :=
  C1_set_then_check u0 "Secr3t!".data "secr3t!".data "QYxRfvPo".data
    (by decide) (by decide)

/-- C2 counterexample: calling `set_password` with the empty plaintext is
not an error — the code stores a hash of the empty password: the stored
credential is present and verifies the empty plaintext, refuting the claim
at this concrete input. -/
theorem C2_counterexample :
    (set_password u0 [] "QYxRfvPo".data).password_hash ≠ none ∧
    check_password (set_password u0 [] "QYxRfvPo".data) [] = .ok true := by
  constructor
  · simp [set_password]
  · unfold check_password set_password
    dsimp only
    rw [check_generate [] [] "QYxRfvPo".data (by decide)]
    rfl

/-- C2 (amended): `set_password` accepts the empty plaintext like any other
and stores a salted hash of it, which then verifies; rejecting empty or
weak passwords is left to the caller via the configurable password
policy. -/
theorem C2_empty_password_stored (u : User) (salt : Str)
    (hs : dollarFree salt = true) :
    check_password (set_password u [] salt) [] = .ok true := by
  unfold check_password set_password
  dsimp only
  rw [check_generate [] [] salt hs]
  rfl

/-- C2 witness: the amended claim at a concrete user and salt. -/
theorem C2_witness :
    check_password (set_password u0 [] "ab".data) [] = .ok true :=
  C2_empty_password_stored u0 "ab".data (by decide)

/-- C3: `check_password` never raises for a wrong password — after
`set_password` it answers with the comparison result for every candidate;
a stored hash without the `method$salt$…` structure yields false, not an
error; and only a structurally invalid stored credential (missing hash, or
unknown hash method) raises. -/
theorem C3_check_error_behaviour (u : User) (p p' salt h m s rest : Str)
    (hsalt : dollarFree salt = true) (hh : dollarFree h = true)
    (hm : dollarFree m = true) (hkm : knownMethod m = false)
    (hs2 : dollarFree s = true) :
    check_password (set_password u p salt) p' = .ok (p' == p) ∧
    check_password { u with password_hash := none } p
      = .error .corruptCredential ∧
    check_password { u with password_hash := some h } p = .ok false ∧
    check_password { u with password_hash := some (m ++ '$' :: (s ++ '$' :: rest)) } p
      = .error .invalidMethod := by
  refine ⟨?_, rfl, ?_, ?_⟩
  · unfold check_password set_password
    dsimp only
    rw [check_generate p p' salt hsalt]
  · unfold check_password check_password_hash
    dsimp only
    rw [splitFirst_dollar_none h hh]
  · unfold check_password check_password_hash
    dsimp only
    rw [splitFirst_dollar_append m (s ++ '$' :: rest) hm]
    dsimp only
    rw [splitFirst_dollar_append s rest hs2]
    dsimp only
    rw [if_neg (by simp [hkm])]

/-- C3 witness: the error behaviour at concrete inputs — a wrong password
after `set_password`, a missing stored hash, an unstructured stored hash,
and a stored hash with an unknown method. -/
theorem C3_witness :
    check_password (set_password u0 "Secr3t!".data "ab".data) "wrong".data
      = .ok ("wrong".data == "Secr3t!".data) ∧
    check_password { u0 with password_hash := none } "Secr3t!".data
      = .error .corruptCredential ∧
    check_password { u0 with password_hash := some "nohash".data } "Secr3t!".data
      = .ok false ∧
    check_password
      { u0 with password_hash := some ("md5".data ++ '$' :: ("xyz".data ++ '$' :: "beef".data)) }
      "Secr3t!".data = .error .invalidMethod :=
  C3_check_error_behaviour u0 "Secr3t!".data "wrong".data "ab".data
    "nohash".data "md5".data "xyz".data "beef".data
    (by decide) (by decide) (by decide) (by decide) (by decide)

/-- C4: only a salted one-way hash is stored, never the plaintext — after
`set_password(p)` the stored credential is the salted hash, which is never
equal to p; and two calls with the same plaintext under distinct salts
(independent calls draw independent random salts) store distinct hashes. -/
theorem C4_salted_hash_only (u : User) (p salt salt' : Str)
    (hs : dollarFree salt = true) (hs' : dollarFree salt' = true)
    (hne : salt ≠ salt') :
    (set_password u p salt).password_hash = some (generate_password_hash p salt) ∧
    generate_password_hash p salt ≠ p ∧
    generate_password_hash p salt ≠ generate_password_hash p salt' := by
  refine ⟨rfl, gph_ne_password p salt, fun he => hne (gph_inj_salt hs hs' he)⟩

/-- C4 witness: a concrete user, plaintext and two distinct salts. -/
theorem C4_witness :
    (set_password u0 "Secr3t!".data "aaaa".data).password_hash
      = some (generate_password_hash "Secr3t!".data "aaaa".data) ∧
    generate_password_hash "Secr3t!".data "aaaa".data ≠ "Secr3t!".data ∧
    generate_password_hash "Secr3t!".data "aaaa".data
      ≠ generate_password_hash "Secr3t!".data "bbbb".data :=
  C4_salted_hash_only u0 "Secr3t!".data "aaaa".data "bbbb".data
    (by decide) (by decide) (by decide)

/-- C5: once `invalidate_session(token)` has run, `is_active` for that token
stays false across any further operations (token uniqueness prevents a later
`create_session` from reusing the token), and `validate_session(token)`
returns Invalid at every later time â even before natural expiry. -/
theorem C5_invalidate_forever (st : Store) (t : Str) (ops : List Op) (now : Nat)
    (hops : ∀ op ∈ ops, avoidsToken t op = true) :
    (∀ s ∈ run (invalidate_session st t) ops, s.token = t → s.is_active = false) ∧
    (validate_session (run (invalidate_session st t) ops) t now).1 = .Invalid := by
  have h := tokenInactive_run (invalidate_session st t) t ops hops
    (tokenInactive_invalidate st t)
  exact ⟨h, validate_Invalid_of_tokenInactive _ t now h⟩

/-- C5 witness: after invalidating the active, unexpired session and running
further operations, validating its token (before natural expiry) is
Invalid. -/
theorem C5_witness :
    (validate_session (run (invalidate_session st0 "tok".data) ops0) "tok".data 3).1
      = .Invalid :=
  (C5_invalidate_forever st0 "tok".data ops0 3 (by decide)).2

/-- C6: a session validates only while `is_active` is true and the current
time is before `expires_at` â a valid outcome implies the token was found
and both conditions held; and a session created with ttl = 0 is Invalid when
validated immediately. -/
theorem C6_validity_window :
    (∀ st t now uid, (validate_session st t now).1 = .valid uid →
      findSession st t ≠ none) ∧
    (∀ st t now uid s, findSession st t = some s →
      (validate_session st t now).1 = .valid uid →
      s.is_active = true ∧ now < s.expires_at) ∧
    (∀ st uid t now, (validate_session (create_session st uid t now 0) t now).1
      = .Invalid) := by
  refine ⟨?_, ?_, ?_⟩
  · intro st t now uid h hf
    rw [validate_session, hf] at h
    exact absurd h (by simp)
  · intro st t now uid s hf h
    rw [validate_session, hf] at h
    dsimp only at h
    by_cases hact : (s.is_active && decide (now < s.expires_at)) = true
    · simpa using hact
    · rw [if_neg hact] at h
      exact absurd h (by simp)
  · intro st uid t now
    have hf : findSession (create_session st uid t now 0) t =
        some { user_id := uid, token := t, is_active := true,
               created_at := now, expires_at := now + 0, last_activity := now } := by
      unfold findSession create_session
      exact List.find?_cons_of_pos _ (by simp)
    rw [validate_session, hf]
    simp

/-- C6 witness: part two at the concrete store (the active session expiring
at 1000 validates as its user at time 5, so both conditions held), and the
ttl = 0 scenario at a concrete creation. -/
theorem C6_witness :
    (sess0.is_active = true ∧ 5 < sess0.expires_at) ∧
    (validate_session (create_session [] 7 "tok".data 11 0) "tok".data 11).1
      = .Invalid :=
  ⟨C6_validity_window.2.1 st0 "tok".data 5 7 sess0 (by decide) (by decide),
    C6_validity_window.2.2 [] 7 "tok".data 11⟩

/-- C7: a mutation flushed through the ORM refreshes `updated_at` to the
mutation time: both a password change and a profile change that actually
alter the row (the `onupdate` hook fires on the emitted UPDATE) leave
`updated_at` at the flush time. -/
theorem C7_updated_at_refreshed (u : User) (p salt : Str) (f l : Option Str)
    (t : Nat) (hp : u.password_hash ≠ some (generate_password_hash p salt))
    (hprof : ¬(f = u.first_name ∧ l = u.last_name)) :
    (flush_user u (set_password u p salt) t).updated_at = some t ∧
    (flush_user u (update_profile u f l) t).updated_at = some t := by
  constructor
  · unfold flush_user
    rw [if_neg (fun he => hp (congrArg User.password_hash he).symm)]
  · unfold flush_user
    rw [if_neg (fun he => hprof
      ⟨(congrArg User.first_name he), (congrArg User.last_name he)⟩)]

/-- C7 witness: setting a first password and adding a first name on the
concrete row both refresh `updated_at` to the mutation time. -/
theorem C7_witness :
    (flush_user u0 (set_password u0 "Secr3t!".data "ab".data) 1700000100).updated_at
      = some 1700000100 ∧
    (flush_user u0 (update_profile u0 (some "Alice".data) none) 1700000100).updated_at
      = some 1700000100 :=
  C7_updated_at_refreshed u0 "Secr3t!".data "ab".data (some "Alice".data) none
    1700000100 (by simp [u0]) (by simp [u0])

/-- C8: `to_dict` is independent of the stored credential â changing only
`password_hash` leaves the dictionary unchanged â and exposes exactly the
nine public keys, never `password_hash`. -/
theorem C8_to_dict_hides_credential (u : User) (h : Option Str) :
    to_dict { u with password_hash := h } = to_dict u ∧
    (to_dict u).map Prod.fst =
      ["id".data, "username".data, "email".data, "first_name".data,
       "last_name".data, "full_name".data, "is_active".data,
       "created_at".data, "updated_at".data] ∧
    "password_hash".data ∉ (to_dict u).map Prod.fst := by
  refine ⟨rfl, rfl, ?_⟩
  rw [show (to_dict u).map Prod.fst =
      ["id".data, "username".data, "email".data, "first_name".data,
       "last_name".data, "full_name".data, "is_active".data,
       "created_at".data, "updated_at".data] from rfl]
  decide

/-- Rendering of C9 as stated: a name counts as set when it is truthy
(present and non-empty); the full name is "first last" when both are set,
the one set name when only one is, and the username when neither is. -/
def full_name_spec (u : User) : Str :=
  match (if truthy u.first_name then u.first_name else none),
      (if truthy u.last_name then u.last_name else none) with
  | some f, some l => f ++ ' ' :: l
  | some f, none => f
  | none, some l => l
  | none, none => u.username

/-- C9: `get_full_name` agrees with the claim's four-case description for
every user. -/
theorem C9_get_full_name_cases (u : User) : get_full_name u = full_name_spec u := by
  obtain ⟨uid, un, em, ph, fn, ln, ia, ca, ua⟩ := u
  rcases fn with _ | (_ | ⟨c, cs⟩) <;> rcases ln with _ | (_ | ⟨d, ds⟩) <;>
    simp [get_full_name, full_name_spec, truthy]

/-- C10: `get_db` closes the session it opened on every path â whatever the
consumer produces, normal return or raised exception, the session is no
longer open afterwards and the consumer's outcome is propagated (the
`finally` block does not swallow it). -/
theorem C10_get_db_closes {A : Type} (consumer : Nat → Outcome A) (st : DBState)
    (hfresh : st.nextId ∉ st.openIds) :
    st.nextId ∉ (get_db consumer st).2.openIds ∧
    (get_db consumer st).1 = consumer st.nextId := by
  unfold get_db SessionLocal tryFinally closeSession
  dsimp only
  rw [List.erase_cons_head]
  exact ⟨hfresh, rfl⟩

/-- C10 witness: a consumer that raises â the session is closed anyway and
the exception propagates. -/
theorem C10_witness :
    (0 : Nat) ∉ (get_db (fun _ => (Outcome.exn "boom".data : Outcome Nat))
      ⟨0, []⟩).2.openIds ∧
    (get_db (fun _ => (Outcome.exn "boom".data : Outcome Nat)) ⟨0, []⟩).1
      = Outcome.exn "boom".data :=
  C10_get_db_closes (fun _ => Outcome.exn "boom".data) ⟨0, []⟩ (by decide)

end PasswordRepo
